import Mathlib

/-!
# Verification of the CPU usage monitor (`Task2A/monitor.c`)

A shallow embedding of the monitoring engine of `monitor.c`:

* the per-process status readers (`get_process_uid`, `read_proc_cpu_time`),
* the process state table and user aggregation table
  (`find_proc_info`, `add_proc_info`, `find_or_create_user`),
* the scan loop (`scan_processes` and the baseline scan in `initialize`),
* the report generator (`print_summary`, `ticks_to_ms`) and `main`.

Modelling conventions:

* The external environment (directory listing, file contents) is passed in
  explicitly: a directory entry carries the name of the `/proc` entry together
  with the contents of its `status` and `stat` files (`none` models a failed
  `fopen`).
* C `unsigned long long` / `unsigned long` counter values are modelled as `Nat`.
  Every arithmetic operation the source performs on counters is either a
  subtraction guarded by `>=` (exact on `Nat`) or an addition/multiplication of
  values that in any execution stay far below `2^64`, so no wraparound is
  modelled there; the `sscanf`/`fscanf` conversions reduce parsed values
  modulo the width of their type (`% 2^64` for `%lu`, `% 2^32` for `%u`),
  mirroring the unsigned conversion of out-of-range input.
* `fgets`-based line iteration is modelled by splitting the file contents at
  newline characters (no line of a `/proc` status file exceeds the 256-byte
  buffer of the source, and the `Uid:` match and `%u` parse are insensitive to
  the trailing newline).
-/

set_option maxRecDepth 4096

namespace Monitor

/-! ## Character-level helpers (ctype / scanf conversions) -/

/-- The characters accepted by C `isspace` (the whitespace that `scanf`
directives and `%d`/`%u`/`%lu` conversions skip). -/
def is_ws (c : Char) : Bool :=
  c == ' ' || c == '\t' || c == '\n' || c == '\x0b' || c == '\x0c' || c == '\r'

/-- Numeric value of a decimal digit character. -/
def digitVal (c : Char) : Nat := c.toNat - '0'.toNat

/-- Value of a string of decimal digits. -/
def digitsVal (cs : List Char) : Nat := cs.foldl (fun a c => 10 * a + digitVal c) 0

/-- Skip leading whitespace, as the `scanf` conversions do. -/
def skip_ws (cs : List Char) : List Char := cs.dropWhile is_ws

/-- Read a maximal non-empty run of decimal digits; `none` if the input does
not start with a digit (a failed `scanf` numeric conversion). -/
def scan_digits (cs : List Char) : Option (Nat × List Char) :=
  let ds := cs.takeWhile Char.isDigit
  if ds.isEmpty then none
  else some (digitsVal ds, cs.dropWhile Char.isDigit)

/-- One `scanf` integer conversion: skip whitespace, optional sign, digits.
Returns the signed value and the rest of the input. -/
def scan_sign_digits (cs : List Char) : Option (Int × List Char) :=
  match skip_ws cs with
  | [] => none
  | c :: t =>
    if c = '-' then (scan_digits t).map (fun p => (-(p.1 : Int), p.2))
    else if c = '+' then (scan_digits t).map (fun p => ((p.1 : Int), p.2))
    else (scan_digits (c :: t)).map (fun p => ((p.1 : Int), p.2))

/-- Conversion of a parsed integer to `unsigned long` / `unsigned long long`
(64-bit on the target platform). -/
def as_u64 (v : Int) : Nat := (v % (2 ^ 64 : Int)).toNat

/-- Conversion of a parsed integer to `unsigned int` (`uid_t`, 32-bit). -/
def as_u32 (v : Int) : Nat := (v % (2 ^ 32 : Int)).toNat

/-- C `atoi`: skip whitespace, optional sign, leading digits; `0` when no
digits are present. -/
def atoi (s : String) : Int :=
  match skip_ws s.data with
  | [] => 0
  | c :: t =>
    if c = '-' then -(digitsVal (t.takeWhile Char.isDigit) : Int)
    else if c = '+' then (digitsVal (t.takeWhile Char.isDigit) : Int)
    else (digitsVal ((c :: t).takeWhile Char.isDigit) : Int)

/-- The source's `is_pid_dir`: a directory entry name consisting solely of
decimal digits (vacuously true for the empty string, as in the C loop). -/
def is_pid_dir (name : String) : Bool := name.data.all Char.isDigit

/-! ## `get_process_uid`: owner lookup from `/proc/<pid>/status` -/

/-- The sentinel `(uid_t)-1` that `get_process_uid` returns on failure. -/
def UID_UNKNOWN : Nat := 4294967295

/-- The check `strncmp(line, "Uid:", 4) == 0`. -/
def starts_Uid (cs : List Char) : Bool :=
  match cs with
  | 'U' :: 'i' :: 'd' :: ':' :: _ => true
  | _ => false

/-- Split file contents into `fgets`-style lines (newline separators). -/
def split_lines : List Char → List Char → List String
  | [], acc => [String.mk acc.reverse]
  | c :: t, acc =>
    if c = '\n' then String.mk acc.reverse :: split_lines t []
    else split_lines t (c :: acc)

/-- All lines of a status file. -/
def linesOf (s : String) : List String := split_lines s.data []

/-- The conversion `sscanf(line + 4, "%u", &uid)`: parse the first uid token of a `Uid:`
line; `none` leaves the caller's `uid` at its initial `(uid_t)-1`. -/
def scan_u32 (cs : List Char) : Option Nat :=
  (scan_sign_digits cs).map (fun p => as_u32 p.1)

/-- The line loop of `get_process_uid`: find the first line starting with
`Uid:` and parse its first numeric token; the loop breaks on the first
matching line whether or not the parse succeeds. -/
def uid_from_lines : List String → Nat
  | [] => UID_UNKNOWN
  | l :: ls =>
    if starts_Uid l.data then
      match scan_u32 (l.data.drop 4) with
      | some v => v
      | none => UID_UNKNOWN
    else uid_from_lines ls

/-- The owner lookup `get_process_uid`: a `none` input models a failed `fopen` of
`/proc/<pid>/status`. -/
def get_process_uid (file : Option String) : Nat :=
  match file with
  | none => UID_UNKNOWN
  | some content => uid_from_lines (linesOf content)

/-! ## `read_proc_cpu_time`: the `/proc/<pid>/stat` parser -/

/-- The command-name loop of `read_proc_cpu_time`: reads characters tracking
parenthesis nesting depth; the first `(` is skipped, characters at positive
depth are appended (up to the 255-character `comm` buffer bound), and the
loop breaks when the depth returns to zero.  Reaching end of input ends the
loop with the remaining input empty (the subsequent field scan then fails,
exactly as the `fscanf` after the loop fails at `EOF`). -/
def read_comm : List Char → Int → List Char → (List Char × List Char)
  | [], _, acc => (acc.reverse, [])
  | c :: t, depth, acc =>
    if c = '(' then
      let d := depth + 1
      if d = 1 then read_comm t d acc
      else read_comm t d (if 0 < d ∧ acc.length < 255 then c :: acc else acc)
    else if c = ')' then
      let d := depth - 1
      if d = 0 then (acc.reverse, t)
      else read_comm t d (if 0 < d ∧ acc.length < 255 then c :: acc else acc)
    else
      read_comm t depth (if 0 < depth ∧ acc.length < 255 then c :: acc else acc)

/-- A run of `n` consecutive `scanf` integer conversions. -/
def scan_nums : Nat → List Char → Option (List Int × List Char)
  | 0, cs => some ([], cs)
  | n + 1, cs =>
    match scan_sign_digits cs with
    | none => none
    | some (v, r) => (scan_nums n r).map (fun p => (v :: p.1, p.2))

/-- The twelve numeric conversions of the
`fscanf(fp, " %c %d %d %d %d %d %u %lu %lu %lu %lu %lu %lu", ...)` after the
state character: `ppid pgrp session tty_nr tpgid flags minflt cminflt majflt
cmajflt utime stime`; all must convert, and the last two are returned as the
64-bit `utime` and `stime`. -/
def read_stat_nums (rest : List Char) : Option (Nat × Nat) :=
  match scan_nums 12 rest with
  | none => none
  | some ([_ppid, _pgrp, _session, _tty_nr, _tpgid, _flags,
           _minflt, _cminflt, _majflt, _cmajflt, utime_val, stime_val], _) =>
    some (as_u64 utime_val, as_u64 stime_val)
  | some (_, _) => none

/-- The thirteen-conversion `fscanf` after the command name: skip
whitespace, read the one state character (fails at end of input), then the
twelve numeric fields. -/
def read_stat_fields (cs : List Char) : Option (Nat × Nat) :=
  match skip_ws cs with
  | [] => none
  | _state :: rest => read_stat_nums rest

/-- The parse of one stat record: the leading pid is scanned with `%d `, the
command name with the depth-tracking loop, and the remaining fields with the
thirteen-conversion `fscanf`. -/
def read_proc_cpu_time_str (content : String) : Option (Nat × Nat) :=
  match scan_sign_digits content.data with
  | none => none
  | some (_pid_read, r1) => read_stat_fields (read_comm (skip_ws r1) 0 []).2

/-- The stat lookup `read_proc_cpu_time`: a `none` input models a failed `fopen`.  Returns
`none` exactly when the C function returns `-1`. -/
def read_proc_cpu_time (file : Option String) : Option (Nat × Nat) :=
  match file with
  | none => none
  | some content => read_proc_cpu_time_str content

/-! ## The two tables -/

/-- The source's `MAX_USERS`. -/
def MAX_USERS : Nat := 1024

/-- The source's `MAX_PROCS`. -/
def MAX_PROCS : Nat := 65536

/-- The source's `proc_info_t`. -/
structure ProcInfo where
  pid : Nat
  uid : Nat
  last_utime : Nat
  last_stime : Nat
  valid : Bool
  deriving DecidableEq, Repr

/-- The source's `user_cpu_t`. -/
structure UserCpu where
  uid : Nat
  username : String
  cpu_time : Nat
  deriving DecidableEq, Repr

/-- The two global arrays (`proc_info` with `num_procs`, `users` with
`num_users`), in insertion order. -/
structure MonState where
  procs : List ProcInfo
  users : List UserCpu
  deriving DecidableEq, Repr

/-- The empty tables at program start. -/
def empty_state : MonState := { procs := [], users := [] }

/-- The lookup `find_proc_info`: first valid entry with the given pid. -/
def find_proc_info : List ProcInfo → Nat → Option ProcInfo
  | [], _ => none
  | p :: t, pid =>
    if p.pid = pid ∧ p.valid = true then some p else find_proc_info t pid

/-- The insertion `add_proc_info`: append a new valid record with the given counters as
baseline; a full table drops the entry (the caller ignores the `NULL`). -/
def add_proc_info (procs : List ProcInfo) (pid uid u s : Nat) : List ProcInfo :=
  if MAX_PROCS ≤ procs.length then procs
  else procs ++ [{ pid := pid, uid := uid, last_utime := u, last_stime := s, valid := true }]

/-- The in-place update `pi->last_utime = utime; pi->last_stime = stime;`
applied through the pointer returned by `find_proc_info`: the first valid
entry with the given pid gets the new counters. -/
def updateProc : List ProcInfo → Nat → Nat → Nat → List ProcInfo
  | [], _, _, _ => []
  | p :: t, pid, u, s =>
    if p.pid = pid ∧ p.valid = true then
      { p with last_utime := u, last_stime := s } :: t
    else p :: updateProc t pid u s

/-- Index of the first user entry with the given uid. -/
def find_user_idx : List UserCpu → Nat → Option Nat
  | [], _ => none
  | p :: t, uid =>
    if p.uid = uid then some 0
    else (find_user_idx t uid).map (· + 1)

/-- The new-entry initialisation of `find_or_create_user`: zero CPU time and
a display name resolved once at creation (`getpwuid`, modelled by the
`resolve` parameter; truncated to the 63 characters `strncpy` keeps), or the
decimal uid string if resolution fails. -/
def mk_user (resolve : Nat → Option String) (uid : Nat) : UserCpu :=
  { uid := uid
    username :=
      match resolve uid with
      | some n => String.mk (n.data.take 63)
      | none => toString uid
    cpu_time := 0 }

/-- The table operation `find_or_create_user`: returns the updated table and the index of the
entry for `uid` (`none` models the `NULL` returned when the table is full). -/
def find_or_create_user (resolve : Nat → Option String) (users : List UserCpu) (uid : Nat) :
    List UserCpu × Option Nat :=
  match find_user_idx users uid with
  | some i => (users, some i)
  | none =>
    if MAX_USERS ≤ users.length then (users, none)
    else (users ++ [mk_user resolve uid], some users.length)

/-- The increment `user->cpu_time += d` through the pointer at index `i`. -/
def bumpAt : List UserCpu → Nat → Nat → List UserCpu
  | [], _, _ => []
  | u :: t, 0, d => { u with cpu_time := u.cpu_time + d } :: t
  | u :: t, i + 1, d => u :: bumpAt t i d

/-- The sequence `user = find_or_create_user(uid); if (user) user->cpu_time += d;`. -/
def accumulate (resolve : Nat → Option String) (users : List UserCpu) (uid d : Nat) :
    List UserCpu :=
  match find_or_create_user resolve users uid with
  | (users', some i) => bumpAt users' i d
  | (users', none) => users'

/-- The guarded subtraction
`if (utime >= pi->last_utime) delta_utime = utime - pi->last_utime;`
(with `delta_utime` initialised to zero). -/
def deltaFloor (newv stored : Nat) : Nat :=
  if stored ≤ newv then newv - stored else 0

/-! ## The scan loop -/

/-- One `/proc` directory entry together with the contents the environment
supplies for its `status` and `stat` files (`none` models a failed open). -/
structure DirEntry where
  name : String
  status : Option String
  stat : Option String
  deriving DecidableEq, Repr

/-- The table manipulation of the `scan_processes` loop body, after both
lookups succeeded: a pid with no valid record is recorded with its current
counters and its user registered; a tracked pid has its floored deltas
accumulated to the freshly read uid and its stored counters overwritten. -/
def scan_core (resolve : Nat → Option String) (st : MonState) (pid uid u s : Nat) :
    MonState :=
  match find_proc_info st.procs pid with
  | none =>
    { procs := add_proc_info st.procs pid uid u s
      users := (find_or_create_user resolve st.users uid).1 }
  | some pi =>
    let du := deltaFloor u pi.last_utime
    let ds := deltaFloor s pi.last_stime
    { procs := updateProc st.procs pid u s
      users := accumulate resolve st.users uid (du + ds) }

/-- The body of the `initialize` loop after both lookups succeeded:
`add_proc_info` followed by `find_or_create_user`, unconditionally. -/
def init_core (resolve : Nat → Option String) (st : MonState) (pid uid u s : Nat) :
    MonState :=
  { procs := add_proc_info st.procs pid uid u s
    users := (find_or_create_user resolve st.users uid).1 }

/-- One iteration of the `scan_processes` loop: skip non-numeric names, skip
an unknown owner, skip a failed stat parse, otherwise run the table logic. -/
def scan_step (resolve : Nat → Option String) (st : MonState) (e : DirEntry) : MonState :=
  if is_pid_dir e.name = false then st
  else
    let pid := (atoi e.name).toNat
    let uid := get_process_uid e.status
    if uid = UID_UNKNOWN then st
    else
      match read_proc_cpu_time e.stat with
      | none => st
      | some (u, s) => scan_core resolve st pid uid u s

/-- One iteration of the `initialize` loop. -/
def init_step (resolve : Nat → Option String) (st : MonState) (e : DirEntry) : MonState :=
  if is_pid_dir e.name = false then st
  else
    let pid := (atoi e.name).toNat
    let uid := get_process_uid e.status
    if uid = UID_UNKNOWN then st
    else
      match read_proc_cpu_time e.stat with
      | none => st
      | some (u, s) => init_core resolve st pid uid u s

/-- The scan loop `scan_processes`: a failed `opendir("/proc")` (`none`) aborts the scan;
otherwise every directory entry is processed in order. -/
def scan_processes (resolve : Nat → Option String) (st : MonState)
    (dir : Option (List DirEntry)) : MonState :=
  match dir with
  | none => st
  | some es => es.foldl (scan_step resolve) st

/-- The baseline scan `initialize`. -/
def init_scan (resolve : Nat → Option String) (st : MonState)
    (dir : Option (List DirEntry)) : MonState :=
  match dir with
  | none => st
  | some es => es.foldl (init_step resolve) st

/-- The monitoring loop: `duration` sampling ticks, the directory listing of
tick `k` supplied by the environment. -/
def run_ticks (resolve : Nat → Option String) (ticksrc : Nat → Option (List DirEntry))
    (st : MonState) (n : Nat) : MonState :=
  (List.range n).foldl (fun s k => scan_processes resolve s (ticksrc k)) st

/-! ## Specification-side measures -/

/-- Total CPU time the user table attributes to uid `w` (the sum over the
records with that uid; the table holds at most one record per uid, so this
is the `cpu_time` of the record for `w`, or `0` when no record exists). -/
def userTicks (users : List UserCpu) (w : Nat) : Nat :=
  (users.map (fun u => if u.uid = w then u.cpu_time else 0)).sum

/-- Parenthesis balance of a character string: occurrences of `(` minus
occurrences of `)`. -/
def parenBal (cs : List Char) : Int :=
  (cs.count '(' : Int) - (cs.count ')' : Int)

/-- Whitespace splitting (the "whitespace-delimited fields" of the spec):
maximal runs of non-whitespace characters. -/
def wsSplitAux : List Char → List Char → List (List Char)
  | [], acc => if acc.isEmpty then [] else [acc.reverse]
  | c :: t, acc =>
    if is_ws c then
      if acc.isEmpty then wsSplitAux t [] else acc.reverse :: wsSplitAux t []
    else wsSplitAux t (c :: acc)

/-- The whitespace-delimited fields of a string. -/
def wsSplit (cs : List Char) : List (List Char) := wsSplitAux cs []

/-- A single-space-prefixed concatenation of tokens, the shape of the field
region of a well-formed `/proc/<pid>/stat` record. -/
def tailRepr : List (List Char) → List Char
  | [] => []
  | t :: rest => ' ' :: (t ++ tailRepr rest)

/-- A well-formed numeric field token: non-empty, decimal digits only. -/
def goodTok (t : List Char) : Bool := !t.isEmpty && t.all Char.isDigit

/-- A command name with no parentheses and no whitespace, fitting the
`comm` buffer. -/
def plainComm (comm : List Char) : Bool :=
  decide (comm.length ≤ 255) &&
    comm.all (fun c => !(c == '(') && !(c == ')') && !is_ws c)

/-! ## Report generation -/

/-- The source's `compare_users`: the `qsort` comparator (descending by `cpu_time`). -/
def compare_users (a b : UserCpu) : Int :=
  if a.cpu_time < b.cpu_time then 1
  else if b.cpu_time < a.cpu_time then -1
  else 0

/-- The order the comparator induces: `a` may precede `b` in the sorted
array. -/
def user_order (a b : UserCpu) : Prop := compare_users a b ≤ 0

instance : DecidableRel user_order := fun _ _ => inferInstanceAs (Decidable (_ ≤ _))

instance : IsTotal UserCpu user_order := ⟨by
  intro a b
  unfold user_order compare_users
  split_ifs <;> omega⟩

instance : IsTrans UserCpu user_order := ⟨by
  intro a b c h1 h2
  unfold user_order compare_users at h1 h2 ⊢
  split_ifs at h1 h2 ⊢ <;> omega⟩

/-- The sorted user array (the `qsort` call; `qsort` leaves the order of
ties unspecified, so any comparison sort with the same comparator is a
faithful model). -/
def sorted_users (users : List UserCpu) : List UserCpu :=
  List.insertionSort user_order users

/-- The subsequence of sorted users that produce a row
(`users[i].cpu_time > 0`). -/
def positive_users (users : List UserCpu) : List UserCpu :=
  (sorted_users users).filter (fun u => 0 < u.cpu_time)

/-- The conversion `ticks_to_ms`: `(ticks * 1000) / clk_tck` in integer division. -/
def ticks_to_ms (clk : Nat) (ticks : Nat) : Nat := ticks * 1000 / clk

/-- The observable output of `print_summary`: the ranked rows
`(rank, username, milliseconds)` and whether the
`(No CPU usage recorded)` line is printed. -/
structure ReportOut where
  rows : List (Nat × String × Nat)
  no_usage_msg : Bool
  deriving DecidableEq, Repr

/-- The report `print_summary`: sort, emit one numbered row per user with positive
`cpu_time` (ranks counted from 1 in sorted order), and the distinct
no-usage line when no row was produced. -/
def print_summary (clk : Nat) (users : List UserCpu) : ReportOut :=
  let pos := positive_users users
  { rows := pos.enum.map (fun p => (p.1 + 1, p.2.username, ticks_to_ms clk p.2.cpu_time))
    no_usage_msg := pos.isEmpty }

/-- The `clk_tck` selection in `main`: `sysconf(_SC_CLK_TCK)` with fallback
`100` when the query fails (returns `-1`) or is non-positive. -/
def select_clk_tck (sysconf_val : Int) : Int :=
  if sysconf_val ≤ 0 then 100 else sysconf_val

/-! ## `main` -/

/-- The observable control behaviour of `main`: exit status, whether a
usage/error message went to `stderr` before any monitoring, and the number
of sampling ticks performed. -/
structure MainResult where
  exit_code : Nat
  usage_error : Bool
  ticks_run : Nat
  deriving DecidableEq, Repr

/-- The entry point `main`: argument-count check, `atoi` of the duration, non-positive
duration rejected; otherwise the baseline scan followed by exactly
`duration` sampling ticks, exit status `0`. -/
def monitor_main (resolve : Nat → Option String)
    (baseline : Option (List DirEntry)) (ticksrc : Nat → Option (List DirEntry))
    (argv : List String) : MainResult × MonState :=
  match argv with
  | [_prog, darg] =>
    let d := atoi darg
    if d ≤ 0 then ({ exit_code := 1, usage_error := true, ticks_run := 0 }, empty_state)
    else
      let st1 := init_scan resolve empty_state baseline
      ({ exit_code := 0, usage_error := false, ticks_run := d.toNat },
        run_ticks resolve ticksrc st1 d.toNat)
  | _ => ({ exit_code := 1, usage_error := true, ticks_run := 0 }, empty_state)

/-! ## Table lemmas -/

theorem find_proc_info_updateProc (procs : List ProcInfo) (pid u s : Nat) :
    find_proc_info (updateProc procs pid u s) pid =
      (find_proc_info procs pid).map (fun q => { q with last_utime := u, last_stime := s }) := by
  induction procs with
  | nil => rfl
  | cons p t ih =>
    by_cases h : p.pid = pid ∧ p.valid = true
    · simp [find_proc_info, updateProc, h]
    · simp [find_proc_info, updateProc, h, ih]

theorem updateProc_map_pid_uid (procs : List ProcInfo) (pid u s : Nat) :
    (updateProc procs pid u s).map (fun p => (p.pid, p.uid)) =
      procs.map (fun p => (p.pid, p.uid)) := by
  induction procs with
  | nil => rfl
  | cons p t ih =>
    by_cases h : p.pid = pid ∧ p.valid = true
    · simp [updateProc, h]
    · simp [updateProc, h, ih]

theorem find_proc_info_append (procs : List ProcInfo) (q : ProcInfo) (pid : Nat)
    (h : find_proc_info procs pid = none) :
    find_proc_info (procs ++ [q]) pid =
      if q.pid = pid ∧ q.valid = true then some q else none := by
  induction procs with
  | nil => rfl
  | cons p t ih =>
    by_cases hc : p.pid = pid ∧ p.valid = true
    · simp [find_proc_info, hc] at h
    · simp only [List.cons_append]
      simp [find_proc_info, hc] at h ⊢
      exact ih h

theorem userTicks_append (users : List UserCpu) (u : UserCpu) (w : Nat) :
    userTicks (users ++ [u]) w =
      userTicks users w + (if u.uid = w then u.cpu_time else 0) := by
  simp [userTicks]

theorem userTicks_bumpAt_le (users : List UserCpu) (i d w : Nat) :
    userTicks users w ≤ userTicks (bumpAt users i d) w := by
  induction users generalizing i with
  | nil => simp [bumpAt]
  | cons u t ih =>
    cases i with
    | zero =>
      simp only [bumpAt, userTicks, List.map_cons, List.sum_cons]
      by_cases h : u.uid = w <;> simp [h, userTicks]
    | succ i =>
      simp only [bumpAt, userTicks, List.map_cons, List.sum_cons]
      have := ih i
      simp only [userTicks] at this
      omega

theorem find_or_create_users_fst (resolve : Nat → Option String)
    (users : List UserCpu) (uid w : Nat) :
    userTicks (find_or_create_user resolve users uid).1 w = userTicks users w := by
  unfold find_or_create_user
  cases h : find_user_idx users uid with
  | some i => rfl
  | none =>
    by_cases hful : MAX_USERS ≤ users.length
    · simp [hful]
    · simp [hful, userTicks_append, mk_user]

theorem userTicks_accumulate_le (resolve : Nat → Option String)
    (users : List UserCpu) (uid d w : Nat) :
    userTicks users w ≤ userTicks (accumulate resolve users uid d) w := by
  unfold accumulate
  rcases h : find_or_create_user resolve users uid with ⟨us2, idx⟩
  have h2 : userTicks us2 w = userTicks users w := by
    have := find_or_create_users_fst resolve users uid w
    rw [h] at this
    exact this
  cases idx with
  | none => exact le_of_eq h2.symm
  | some i =>
    calc userTicks users w = userTicks us2 w := h2.symm
      _ ≤ userTicks (bumpAt us2 i d) w := userTicks_bumpAt_le us2 i d w

theorem userTicks_scan_core_le (resolve : Nat → Option String) (st : MonState)
    (pid uid u s w : Nat) :
    userTicks st.users w ≤ userTicks (scan_core resolve st pid uid u s).users w := by
  unfold scan_core
  cases find_proc_info st.procs pid with
  | none => exact le_of_eq (find_or_create_users_fst resolve st.users uid w).symm
  | some pi => exact userTicks_accumulate_le resolve st.users uid _ w

theorem userTicks_scan_step_le (resolve : Nat → Option String) (st : MonState)
    (e : DirEntry) (w : Nat) :
    userTicks st.users w ≤ userTicks (scan_step resolve st e).users w := by
  unfold scan_step
  by_cases h1 : is_pid_dir e.name = false
  · simp [h1]
  · simp only [h1, if_false]
    by_cases h2 : get_process_uid e.status = UID_UNKNOWN
    · simp [h2]
    · simp only [h2, if_false]
      cases read_proc_cpu_time e.stat with
      | none => exact le_refl _
      | some p => exact userTicks_scan_core_le resolve st _ _ p.1 p.2 w

theorem userTicks_scan_list_le (resolve : Nat → Option String) (es : List DirEntry) :
    ∀ (st : MonState) (w : Nat),
      userTicks st.users w ≤ userTicks (es.foldl (scan_step resolve) st).users w := by
  induction es with
  | nil => intro st w; exact le_refl _
  | cons e t ih =>
    intro st w
    calc userTicks st.users w ≤ userTicks (scan_step resolve st e).users w :=
          userTicks_scan_step_le resolve st e w
      _ ≤ userTicks (t.foldl (scan_step resolve) (scan_step resolve st e)).users w := ih _ w

theorem userTicks_scan_processes_le (resolve : Nat → Option String) (st : MonState)
    (dir : Option (List DirEntry)) (w : Nat) :
    userTicks st.users w ≤ userTicks (scan_processes resolve st dir).users w := by
  cases dir with
  | none => exact le_refl _
  | some es => exact userTicks_scan_list_le resolve es st w

theorem userTicks_run_list_le (resolve : Nat → Option String)
    (ticksrc : Nat → Option (List DirEntry)) (ks : List Nat) :
    ∀ (st : MonState) (w : Nat),
      userTicks st.users w ≤
        userTicks ((ks.foldl (fun s k => scan_processes resolve s (ticksrc k)) st)).users w := by
  induction ks with
  | nil => intro st w; exact le_refl _
  | cons k t ih =>
    intro st w
    calc userTicks st.users w
        ≤ userTicks (scan_processes resolve st (ticksrc k)).users w :=
          userTicks_scan_processes_le resolve st (ticksrc k) w
      _ ≤ _ := ih _ w

/-! ## Claim theorems -/

/-- C1: for a pid already tracked in the process state table, a subsequent
observation with new counters `(u, s)` computes `delta = max(0, new - stored)`
independently for the user-mode and system-mode counters, accumulates exactly
that amount, and overwrites the stored counters with the new values; a
decreased counter yields a delta of exactly zero, never negative. -/
theorem advance_delta_floor (resolve : Nat → Option String) (st : MonState)
    (pid uid u s : Nat) (pi : ProcInfo)
    (h : find_proc_info st.procs pid = some pi) :
    find_proc_info (scan_core resolve st pid uid u s).procs pid =
        some { pi with last_utime := u, last_stime := s } ∧
    ((deltaFloor u pi.last_utime : Int) = max 0 ((u : Int) - (pi.last_utime : Int))) ∧
    ((deltaFloor s pi.last_stime : Int) = max 0 ((s : Int) - (pi.last_stime : Int))) ∧
    (u < pi.last_utime → deltaFloor u pi.last_utime = 0) ∧
    (s < pi.last_stime → deltaFloor s pi.last_stime = 0) ∧
    (scan_core resolve st pid uid u s).users =
      accumulate resolve st.users uid
        (deltaFloor u pi.last_utime + deltaFloor s pi.last_stime) := by
  refine ⟨?_, ?_, ?_, ?_, ?_, ?_⟩
  · unfold scan_core
    rw [h]
    simp only
    rw [find_proc_info_updateProc, h]
    rfl
  · unfold deltaFloor
    by_cases hle : pi.last_utime ≤ u
    · rw [if_pos hle, Int.ofNat_sub hle,
        max_eq_right (sub_nonneg.mpr (Int.ofNat_le.mpr hle))]
    · rw [if_neg hle,
        max_eq_left (sub_nonpos.mpr (Int.ofNat_le.mpr (le_of_lt (not_le.mp hle))))]
      rfl
  · unfold deltaFloor
    by_cases hle : pi.last_stime ≤ s
    · rw [if_pos hle, Int.ofNat_sub hle,
        max_eq_right (sub_nonneg.mpr (Int.ofNat_le.mpr hle))]
    · rw [if_neg hle,
        max_eq_left (sub_nonpos.mpr (Int.ofNat_le.mpr (le_of_lt (not_le.mp hle))))]
      rfl
  · intro hlt
    unfold deltaFloor
    rw [if_neg (by omega)]
  · intro hlt
    unfold deltaFloor
    rw [if_neg (by omega)]
  · unfold scan_core
    rw [h]

/-- Witness for C1 at a concrete tracked process whose user counter
decreased (10 → 3) and whose system counter increased (20 → 25). -/
theorem advance_delta_floor_witness :
    find_proc_info [ProcInfo.mk 5 7 10 20 true] 5 = some (ProcInfo.mk 5 7 10 20 true) ∧
    (find_proc_info (scan_core (fun _ => none)
          (MonState.mk [ProcInfo.mk 5 7 10 20 true] [UserCpu.mk 7 "x" 0]) 5 7 3 25).procs 5 =
        some { ProcInfo.mk 5 7 10 20 true with last_utime := 3, last_stime := 25 } ∧
      ((deltaFloor 3 (ProcInfo.mk 5 7 10 20 true).last_utime : Int) =
        max 0 ((3 : Int) - ((ProcInfo.mk 5 7 10 20 true).last_utime : Int))) ∧
      ((deltaFloor 25 (ProcInfo.mk 5 7 10 20 true).last_stime : Int) =
        max 0 ((25 : Int) - ((ProcInfo.mk 5 7 10 20 true).last_stime : Int))) ∧
      (3 < (ProcInfo.mk 5 7 10 20 true).last_utime →
        deltaFloor 3 (ProcInfo.mk 5 7 10 20 true).last_utime = 0) ∧
      (25 < (ProcInfo.mk 5 7 10 20 true).last_stime →
        deltaFloor 25 (ProcInfo.mk 5 7 10 20 true).last_stime = 0) ∧
      (scan_core (fun _ => none)
          (MonState.mk [ProcInfo.mk 5 7 10 20 true] [UserCpu.mk 7 "x" 0]) 5 7 3 25).users =
        accumulate (fun _ => none) [UserCpu.mk 7 "x" 0] 7
          (deltaFloor 3 (ProcInfo.mk 5 7 10 20 true).last_utime +
            deltaFloor 25 (ProcInfo.mk 5 7 10 20 true).last_stime)) :=
  ⟨by decide,
    advance_delta_floor (fun _ => none)
      (MonState.mk [ProcInfo.mk 5 7 10 20 true] [UserCpu.mk 7 "x" 0]) 5 7 3 25
      (ProcInfo.mk 5 7 10 20 true) (by decide)⟩

/-- Counterexample to C2 as stated: pid 1 is tracked with stored uid 7, but
the sample reads uid 9 from the status record; the 7-tick delta is
accumulated to uid 9 (the freshly read value), not to the stored uid 7. -/
theorem uid_attribution_cex :
    userTicks ((scan_step (fun _ => none)
        (MonState.mk [ProcInfo.mk 1 7 0 0 true] [UserCpu.mk 7 "7" 0])
        (DirEntry.mk "1" (some "Uid:\t9\n")
          (some "1 (p) S 1 1 1 1 1 1 1 1 1 1 3 4"))).users) 7 = 0 ∧
    userTicks ((scan_step (fun _ => none)
        (MonState.mk [ProcInfo.mk 1 7 0 0 true] [UserCpu.mk 7 "7" 0])
        (DirEntry.mk "1" (some "Uid:\t9\n")
          (some "1 (p) S 1 1 1 1 1 1 1 1 1 1 3 4"))).users) 9 = 7 := by
  decide

/-- C2 as amended: the uid stored in a `ProcessRecord` is captured at first
observation and never modified afterwards (an update through the record's
pointer touches only the counters), but the delta accumulated on a later
sample is attributed to the uid freshly read from the status record on that
sample — which coincides with the stored uid only while the process's owner
is unchanged. -/
theorem uid_static_record_amended (resolve : Nat → Option String) (st : MonState)
    (pid uid u s : Nat) (pi : ProcInfo)
    (h : find_proc_info st.procs pid = some pi) :
    ((scan_core resolve st pid uid u s).procs.map (fun p => (p.pid, p.uid)) =
      st.procs.map (fun p => (p.pid, p.uid))) ∧
    find_proc_info (scan_core resolve st pid uid u s).procs pid =
      some { pi with last_utime := u, last_stime := s } ∧
    (scan_core resolve st pid uid u s).users =
      accumulate resolve st.users uid
        (deltaFloor u pi.last_utime + deltaFloor s pi.last_stime) := by
  refine ⟨?_, ?_, ?_⟩
  · unfold scan_core
    rw [h]
    simp only
    exact updateProc_map_pid_uid st.procs pid u s
  · unfold scan_core
    rw [h]
    simp only
    rw [find_proc_info_updateProc, h]
    rfl
  · unfold scan_core
    rw [h]

/-- Witness for the amended C2 at a concrete tracked process observed with a
different uid than the stored one. -/
theorem uid_static_record_amended_witness :
    find_proc_info [ProcInfo.mk 1 7 0 0 true] 1 = some (ProcInfo.mk 1 7 0 0 true) ∧
    (((scan_core (fun _ => none)
          (MonState.mk [ProcInfo.mk 1 7 0 0 true] [UserCpu.mk 7 "7" 0]) 1 9 3 4).procs.map
        (fun p => (p.pid, p.uid)) =
        [ProcInfo.mk 1 7 0 0 true].map (fun p => (p.pid, p.uid))) ∧
      find_proc_info (scan_core (fun _ => none)
          (MonState.mk [ProcInfo.mk 1 7 0 0 true] [UserCpu.mk 7 "7" 0]) 1 9 3 4).procs 1 =
        some { ProcInfo.mk 1 7 0 0 true with last_utime := 3, last_stime := 4 } ∧
      (scan_core (fun _ => none)
          (MonState.mk [ProcInfo.mk 1 7 0 0 true] [UserCpu.mk 7 "7" 0]) 1 9 3 4).users =
        accumulate (fun _ => none) [UserCpu.mk 7 "7" 0] 9
          (deltaFloor 3 (ProcInfo.mk 1 7 0 0 true).last_utime +
            deltaFloor 4 (ProcInfo.mk 1 7 0 0 true).last_stime)) :=
  ⟨by decide,
    uid_static_record_amended (fun _ => none)
      (MonState.mk [ProcInfo.mk 1 7 0 0 true] [UserCpu.mk 7 "7" 0]) 1 9 3 4
      (ProcInfo.mk 1 7 0 0 true) (by decide)⟩

/-- C5: a process observed for the first time — during the baseline scan or
during any later sampling tick — contributes zero ticks to every user's
accumulated total on that observation: its record is seeded with its current
counters (not zero), and its owning user is registered with zero accumulated
ticks if not already present. -/
theorem first_observation_zero (resolve : Nat → Option String) (st : MonState)
    (pid uid u s : Nat)
    (h : find_proc_info st.procs pid = none) :
    (∀ w, userTicks (scan_core resolve st pid uid u s).users w = userTicks st.users w) ∧
    (st.procs.length < MAX_PROCS →
      find_proc_info (scan_core resolve st pid uid u s).procs pid =
        some (ProcInfo.mk pid uid u s true)) ∧
    (find_user_idx st.users uid = none → st.users.length < MAX_USERS →
      (scan_core resolve st pid uid u s).users = st.users ++ [mk_user resolve uid] ∧
      (mk_user resolve uid).cpu_time = 0) ∧
    (init_core resolve st pid uid u s = scan_core resolve st pid uid u s) ∧
    (∀ (st2 : MonState) (pid2 uid2 u2 s2 w : Nat),
      userTicks (init_core resolve st2 pid2 uid2 u2 s2).users w = userTicks st2.users w) := by
  refine ⟨?_, ?_, ?_, ?_, ?_⟩
  · intro w
    unfold scan_core
    rw [h]
    exact find_or_create_users_fst resolve st.users uid w
  · intro hroom
    unfold scan_core
    rw [h]
    simp only
    unfold add_proc_info
    rw [if_neg (by omega)]
    rw [find_proc_info_append st.procs _ pid h]
    simp
  · intro hnew hroom
    refine ⟨?_, rfl⟩
    unfold scan_core
    rw [h]
    simp only
    unfold find_or_create_user
    rw [hnew]
    simp only
    rw [if_neg (by omega)]
  · unfold scan_core init_core
    rw [h]
  · intro st2 pid2 uid2 u2 s2 w
    unfold init_core
    exact find_or_create_users_fst resolve st2.users uid2 w

/-- Witness for C5: a fresh pid with counters `(11, 22)` and a previously
unseen uid, on a state with one unrelated user record. -/
theorem first_observation_zero_witness :
    find_proc_info ([] : List ProcInfo) 3 = none ∧
    ((∀ w, userTicks (scan_core (fun _ => none)
        (MonState.mk [] [UserCpu.mk 4 "a" 5]) 3 9 11 22).users w =
        userTicks [UserCpu.mk 4 "a" 5] w) ∧
      (([] : List ProcInfo).length < MAX_PROCS →
        find_proc_info (scan_core (fun _ => none)
          (MonState.mk [] [UserCpu.mk 4 "a" 5]) 3 9 11 22).procs 3 =
          some (ProcInfo.mk 3 9 11 22 true)) ∧
      (find_user_idx [UserCpu.mk 4 "a" 5] 9 = none → [UserCpu.mk 4 "a" 5].length < MAX_USERS →
        (scan_core (fun _ => none)
          (MonState.mk [] [UserCpu.mk 4 "a" 5]) 3 9 11 22).users =
          [UserCpu.mk 4 "a" 5] ++ [mk_user (fun _ => none) 9] ∧
        (mk_user (fun _ => none) 9).cpu_time = 0) ∧
      (init_core (fun _ => none) (MonState.mk [] [UserCpu.mk 4 "a" 5]) 3 9 11 22 =
        scan_core (fun _ => none) (MonState.mk [] [UserCpu.mk 4 "a" 5]) 3 9 11 22) ∧
      (∀ (st2 : MonState) (pid2 uid2 u2 s2 w : Nat),
        userTicks (init_core (fun _ => none) st2 pid2 uid2 u2 s2).users w =
          userTicks st2.users w)) :=
  ⟨rfl,
    first_observation_zero (fun _ => none)
      (MonState.mk [] [UserCpu.mk 4 "a" 5]) 3 9 11 22 rfl⟩

/-- C7: every user's accumulated `cpu_time` is non-negative (it lives in
`Nat`, starting from `0` in a freshly created record) and non-decreasing:
one scan, and any number of sampling ticks, can only increase it. -/
theorem user_cpu_ticks_monotone (resolve : Nat → Option String) (st : MonState)
    (dir : Option (List DirEntry)) (ticksrc : Nat → Option (List DirEntry)) (n w : Nat) :
    userTicks st.users w ≤ userTicks (scan_processes resolve st dir).users w ∧
    userTicks st.users w ≤ userTicks (run_ticks resolve ticksrc st n).users w ∧
    (mk_user resolve w).cpu_time = 0 := by
  refine ⟨userTicks_scan_processes_le resolve st dir w, ?_, rfl⟩
  unfold run_ticks
  exact userTicks_run_list_le resolve ticksrc (List.range n) st w

/-- C10: the owner lookup returns the numeric value `(uid_t)-1 = 4294967295`
both when the status record is unreadable and when the process is genuinely
owned by that uid value, and the scan loops skip any entry whose owner
lookup returns that sentinel — such a process is never tracked or
attributed. -/
theorem uid_sentinel_indistinguishable (resolve : Nat → Option String)
    (st : MonState) (e : DirEntry)
    (h : get_process_uid e.status = UID_UNKNOWN) :
    scan_step resolve st e = st ∧
    init_step resolve st e = st ∧
    get_process_uid none = UID_UNKNOWN ∧
    get_process_uid
      (some "Name:\tp\nUid:\t4294967295\t4294967295\t4294967295\t4294967295\nGid:\t0") =
      UID_UNKNOWN := by
  refine ⟨?_, ?_, rfl, by decide⟩
  · unfold scan_step
    by_cases h1 : is_pid_dir e.name = false
    · rw [if_pos h1]
    · rw [if_neg h1, h, if_pos rfl]
  · unfold init_step
    by_cases h1 : is_pid_dir e.name = false
    · rw [if_pos h1]
    · rw [if_neg h1, h, if_pos rfl]

/-- Witness for C10: a readable status record whose owner is genuinely
uid 4294967295 is skipped by both scan loops. -/
theorem uid_sentinel_indistinguishable_witness :
    get_process_uid (some "Uid:\t4294967295\t0\t0\t0\n") = UID_UNKNOWN ∧
    (scan_step (fun _ => none) empty_state
        (DirEntry.mk "42" (some "Uid:\t4294967295\t0\t0\t0\n")
          (some "42 (p) S 1 1 1 1 1 1 1 1 1 1 3 4")) = empty_state ∧
      init_step (fun _ => none) empty_state
        (DirEntry.mk "42" (some "Uid:\t4294967295\t0\t0\t0\n")
          (some "42 (p) S 1 1 1 1 1 1 1 1 1 1 3 4")) = empty_state ∧
      get_process_uid none = UID_UNKNOWN ∧
      get_process_uid
        (some "Name:\tp\nUid:\t4294967295\t4294967295\t4294967295\t4294967295\nGid:\t0") =
        UID_UNKNOWN) :=
  ⟨by decide,
    uid_sentinel_indistinguishable (fun _ => none) empty_state
      (DirEntry.mk "42" (some "Uid:\t4294967295\t0\t0\t0\n")
        (some "42 (p) S 1 1 1 1 1 1 1 1 1 1 3 4")) (by decide)⟩

/-- The comparator order coincides with descending `cpu_time`. -/
theorem user_order_iff (a b : UserCpu) : user_order a b ↔ b.cpu_time ≤ a.cpu_time := by
  unfold user_order compare_users
  split_ifs <;> constructor <;> intro <;> omega

/-- C6: the final report sorts user records by accumulated ticks in
descending order, emits exactly one row per user with strictly positive
accumulated ticks (the row list is built from a permutation of exactly
those users), numbers the rows consecutively from 1 in sorted order, omits
every zero-tick user, and prints the distinct no-usage line exactly when no
row is emitted, i.e. exactly when every user's total is zero. -/
theorem report_ranked (clk : Nat) (users : List UserCpu) :
    ((print_summary clk users).rows.map Prod.fst =
      List.range' 1 ((users.filter (fun u => 0 < u.cpu_time)).length)) ∧
    (positive_users users).Pairwise (fun a b => b.cpu_time ≤ a.cpu_time) ∧
    (positive_users users).Perm (users.filter (fun u => 0 < u.cpu_time)) ∧
    ((print_summary clk users).rows =
      (positive_users users).enum.map
        (fun p => (p.1 + 1, p.2.username, ticks_to_ms clk p.2.cpu_time))) ∧
    ((print_summary clk users).no_usage_msg = true ↔ ∀ u ∈ users, u.cpu_time = 0) ∧
    ((print_summary clk users).no_usage_msg = true ↔ (print_summary clk users).rows = []) := by
  have hperm : (positive_users users).Perm (users.filter (fun u => 0 < u.cpu_time)) :=
    List.Perm.filter _ (List.perm_insertionSort user_order users)
  have hrows : (print_summary clk users).rows =
      (positive_users users).enum.map
        (fun p => (p.1 + 1, p.2.username, ticks_to_ms clk p.2.cpu_time)) := rfl
  have hnil : (print_summary clk users).no_usage_msg = true ↔ positive_users users = [] := by
    simp [print_summary, List.isEmpty_iff]
  refine ⟨?_, ?_, hperm, hrows, ?_, ?_⟩
  · rw [hrows, List.map_map]
    rw [show ((Prod.fst : Nat × String × Nat → Nat) ∘
        (fun p : Nat × UserCpu => (p.1 + 1, p.2.username, ticks_to_ms clk p.2.cpu_time))) =
        ((fun x => x + 1) ∘ (Prod.fst : Nat × UserCpu → Nat)) from rfl]
    rw [← List.map_map, List.enum_map_fst, List.range'_eq_map_range, ← hperm.length_eq]
    simp [Nat.add_comm]
  · have hs : (sorted_users users).Pairwise user_order :=
      List.sorted_insertionSort user_order users
    have hp : (positive_users users).Pairwise user_order :=
      List.Pairwise.sublist (List.filter_sublist (sorted_users users)) hs
    exact hp.imp (fun hab => (user_order_iff _ _).mp hab)
  · rw [hnil]
    constructor
    · intro hpos u hu
      have : users.filter (fun u => 0 < u.cpu_time) = [] := by
        have := hperm.length_eq
        rw [hpos] at this
        exact List.length_eq_zero.mp this.symm
      have h2 := List.filter_eq_nil_iff.mp this u hu
      simp at h2
      exact h2
    · intro hall
      have : users.filter (fun u => 0 < u.cpu_time) = [] := by
        apply List.filter_eq_nil_iff.mpr
        intro u hu
        have := hall u hu
        simp [this]
      have hl := hperm.length_eq
      rw [this] at hl
      exact List.length_eq_zero.mp hl
  · rw [hnil, hrows]
    simp

/-- C8: a wrong argument count, a zero, negative, or non-numeric duration
(`atoi` yields a non-positive value) exits with status 1 and a usage/error
message on the error stream before any monitoring; every other invocation —
whatever the environment does, including failing every per-process read —
performs the baseline scan plus exactly `duration` sampling ticks and exits
with status 0. -/
theorem main_exit_behaviour (resolve : Nat → Option String)
    (baseline : Option (List DirEntry)) (ticksrc : Nat → Option (List DirEntry))
    (argv : List String) :
    (argv.length ≠ 2 →
      monitor_main resolve baseline ticksrc argv =
        (MainResult.mk 1 true 0, empty_state)) ∧
    (∀ p a, atoi a ≤ 0 →
      monitor_main resolve baseline ticksrc [p, a] =
        (MainResult.mk 1 true 0, empty_state)) ∧
    (∀ p a, 0 < atoi a →
      monitor_main resolve baseline ticksrc [p, a] =
        (MainResult.mk 0 false (atoi a).toNat,
          run_ticks resolve ticksrc (init_scan resolve empty_state baseline)
            (atoi a).toNat)) := by
  refine ⟨?_, ?_, ?_⟩
  · intro hlen
    match argv, hlen with
    | [], _ => rfl
    | [_], _ => rfl
    | _ :: _ :: _ :: _, _ => rfl
    | [p, a], hlen => exact absurd rfl hlen
  · intro p a ha
    have hm : monitor_main resolve baseline ticksrc [p, a] =
        (if atoi a ≤ 0 then (MainResult.mk 1 true 0, empty_state)
         else (MainResult.mk 0 false (atoi a).toNat,
           run_ticks resolve ticksrc (init_scan resolve empty_state baseline)
             (atoi a).toNat)) := rfl
    rw [hm, if_pos ha]
  · intro p a ha
    have hm : monitor_main resolve baseline ticksrc [p, a] =
        (if atoi a ≤ 0 then (MainResult.mk 1 true 0, empty_state)
         else (MainResult.mk 0 false (atoi a).toNat,
           run_ticks resolve ticksrc (init_scan resolve empty_state baseline)
             (atoi a).toNat)) := rfl
    rw [hm, if_neg (by omega)]

/-- Witness for C8: too few arguments, the non-numeric duration `"abc"`,
the zero duration `"0"`, the negative duration `"-3"`, and the valid
duration `"2"`. -/
theorem main_exit_behaviour_witness :
    monitor_main (fun _ => none) none (fun _ => none) ["m"] =
      (MainResult.mk 1 true 0, empty_state) ∧
    monitor_main (fun _ => none) none (fun _ => none) ["m", "abc"] =
      (MainResult.mk 1 true 0, empty_state) ∧
    monitor_main (fun _ => none) none (fun _ => none) ["m", "0"] =
      (MainResult.mk 1 true 0, empty_state) ∧
    monitor_main (fun _ => none) none (fun _ => none) ["m", "-3"] =
      (MainResult.mk 1 true 0, empty_state) ∧
    monitor_main (fun _ => none) none (fun _ => none) ["m", "2"] =
      (MainResult.mk 0 false (atoi "2").toNat,
        run_ticks (fun _ => none) (fun _ => none)
          (init_scan (fun _ => none) empty_state none) (atoi "2").toNat) :=
  ⟨(main_exit_behaviour (fun _ => none) none (fun _ => none) ["m"]).1 (by decide),
    (main_exit_behaviour (fun _ => none) none (fun _ => none) ["m", "abc"]).2.1
      "m" "abc" (by decide),
    (main_exit_behaviour (fun _ => none) none (fun _ => none) ["m", "0"]).2.1
      "m" "0" (by decide),
    (main_exit_behaviour (fun _ => none) none (fun _ => none) ["m", "-3"]).2.1
      "m" "-3" (by decide),
    (main_exit_behaviour (fun _ => none) none (fun _ => none) ["m", "2"]).2.2
      "m" "2" (by decide)⟩

/-- C9: reported milliseconds are `floor(ticks * 1000 / ticks_per_second)`
in exact integer arithmetic, with the clock rate falling back to 100
whenever the runtime query fails (`sysconf` returns `-1`) or returns a
non-positive value; in particular 250 ticks at 100 ticks/second report as
2500 ms. -/
theorem ms_conversion (v : Int) (ticks clk : Nat) :
    0 < select_clk_tck v ∧
    (v ≤ 0 → select_clk_tck v = 100) ∧
    Nat.floor (((ticks * 1000 : Nat) : ℚ) / (clk : ℚ)) = ticks_to_ms clk ticks ∧
    ticks_to_ms 100 250 = 2500 := by
  refine ⟨?_, ?_, ?_, rfl⟩
  · unfold select_clk_tck
    split_ifs <;> omega
  · intro hv
    unfold select_clk_tck
    rw [if_pos hv]
  · exact Nat.floor_div_eq_div (ticks * 1000) clk

/-- Witness for C9 at `sysconf` failure value `-1`, 250 ticks, 100
ticks/second. -/
theorem ms_conversion_witness :
    0 < select_clk_tck (-1) ∧
    (select_clk_tck (-1) = 100) ∧
    Nat.floor (((250 * 1000 : Nat) : ℚ) / ((100 : Nat) : ℚ)) = ticks_to_ms 100 250 ∧
    ticks_to_ms 100 250 = 2500 := by
  have h := ms_conversion (-1) 250 100
  exact ⟨h.1, h.2.1 (by decide), h.2.2.1, h.2.2.2⟩

/-! ## Character and scanning lemmas -/

theorem digit_ne_of_not_digit {c e : Char} (h : c.isDigit = true)
    (he : e.isDigit = false) : c ≠ e := by
  rintro rfl
  rw [h] at he
  cases he

theorem is_ws_of_digit {c : Char} (h : c.isDigit = true) : is_ws c = false := by
  have k : ∀ e : Char, e.isDigit = false → (c == e) = false := by
    intro e he
    rw [beq_eq_false_iff_ne]
    exact digit_ne_of_not_digit h he
  unfold is_ws
  rw [k ' ' (by decide), k '\t' (by decide), k '\n' (by decide),
    k '\x0b' (by decide), k '\x0c' (by decide), k '\r' (by decide)]
  rfl

theorem skip_ws_cons_not {c : Char} (t : List Char) (h : is_ws c = false) :
    skip_ws (c :: t) = c :: t := by
  simp [skip_ws, List.dropWhile_cons, h]

theorem skip_ws_cons_ws {c : Char} (t : List Char) (h : is_ws c = true) :
    skip_ws (c :: t) = skip_ws t := by
  simp [skip_ws, List.dropWhile_cons, h]

theorem takeWhile_digits_append (t : List Char) (r : List Char)
    (hall : t.all Char.isDigit = true) (hr : r.takeWhile Char.isDigit = []) :
    (t ++ r).takeWhile Char.isDigit = t := by
  induction t with
  | nil => simpa using hr
  | cons c t ih =>
    simp only [List.all_cons, Bool.and_eq_true] at hall
    simp [List.takeWhile_cons, hall.1, ih hall.2]

theorem dropWhile_digits_self (r : List Char) (hr : r.takeWhile Char.isDigit = []) :
    r.dropWhile Char.isDigit = r := by
  cases r with
  | nil => rfl
  | cons c t =>
    simp only [List.takeWhile_cons] at hr
    by_cases h : c.isDigit = true
    · simp [h] at hr
    · simp only [Bool.not_eq_true] at h
      simp [List.dropWhile_cons, h]

theorem dropWhile_digits_append (t : List Char) (r : List Char)
    (hall : t.all Char.isDigit = true) (hr : r.takeWhile Char.isDigit = []) :
    (t ++ r).dropWhile Char.isDigit = r := by
  induction t with
  | nil => simpa using dropWhile_digits_self r hr
  | cons c t ih =>
    simp only [List.all_cons, Bool.and_eq_true] at hall
    simp [List.dropWhile_cons, hall.1, ih hall.2]

theorem scan_digits_token (t r : List Char) (hg : goodTok t = true)
    (hr : r.takeWhile Char.isDigit = []) :
    scan_digits (t ++ r) = some (digitsVal t, r) := by
  unfold goodTok at hg
  simp only [Bool.and_eq_true, Bool.not_eq_true'] at hg
  unfold scan_digits
  rw [takeWhile_digits_append t r hg.2 hr, dropWhile_digits_append t r hg.2 hr]
  simp [hg.1]

theorem skip_ws_token (t r : List Char) (hg : goodTok t = true) :
    skip_ws (t ++ r) = t ++ r := by
  unfold goodTok at hg
  simp only [Bool.and_eq_true, Bool.not_eq_true'] at hg
  cases t with
  | nil => simp at hg
  | cons c t =>
    simp only [List.all_cons, Bool.and_eq_true] at hg
    exact skip_ws_cons_not _ (is_ws_of_digit hg.2.1)

theorem scan_sign_digits_token (t r : List Char) (hg : goodTok t = true)
    (hr : r.takeWhile Char.isDigit = []) :
    scan_sign_digits (t ++ r) = some ((digitsVal t : Int), r) := by
  unfold scan_sign_digits
  rw [skip_ws_token t r hg]
  have hg' := hg
  unfold goodTok at hg'
  simp only [Bool.and_eq_true, Bool.not_eq_true'] at hg'
  cases t with
  | nil => simp at hg'
  | cons c t =>
    simp only [List.all_cons, Bool.and_eq_true] at hg'
    have hm : ¬(c = '-') := digit_ne_of_not_digit hg'.2.1 (by decide)
    have hp : ¬(c = '+') := digit_ne_of_not_digit hg'.2.1 (by decide)
    simp only [List.cons_append, if_neg hm, if_neg hp]
    rw [← List.cons_append, scan_digits_token _ r hg hr]
    rfl

theorem tailRepr_takeWhile (ts : List (List Char)) :
    (tailRepr ts).takeWhile Char.isDigit = [] := by
  cases ts with
  | nil => rfl
  | cons t r => simp [tailRepr, List.takeWhile_cons]

theorem scan_sign_digits_tailRepr (t : List Char) (rest : List (List Char))
    (hg : goodTok t = true) :
    scan_sign_digits (tailRepr (t :: rest)) =
      some ((digitsVal t : Int), tailRepr rest) := by
  show scan_sign_digits (' ' :: (t ++ tailRepr rest)) = _
  unfold scan_sign_digits
  rw [skip_ws_cons_ws _ (by decide), skip_ws_token t _ hg]
  have h := scan_sign_digits_token t (tailRepr rest) hg (tailRepr_takeWhile rest)
  unfold scan_sign_digits at h
  rw [skip_ws_token t _ hg] at h
  exact h

/-! ## The command-name loop -/

theorem parenBal_nil : parenBal [] = 0 := by simp [parenBal]

theorem parenBal_cons (c : Char) (t : List Char) :
    parenBal (c :: t) =
      (if c = '(' then 1 else if c = ')' then -1 else 0) + parenBal t := by
  by_cases h1 : c = '('
  · subst h1
    simp [parenBal, List.count_cons]
    omega
  · by_cases h2 : c = ')'
    · subst h2
      simp [parenBal, List.count_cons, h1]
      omega
    · simp only [parenBal, List.count_cons, if_neg h1, if_neg h2]
      simp [h1, h2]

theorem read_comm_go (name : List Char) : ∀ (d : Int) (acc rest : List Char),
    1 ≤ d →
    (∀ n, n ≤ name.length → 1 ≤ d + parenBal (name.take n)) →
    d + parenBal name = 1 →
    acc.length + name.length ≤ 255 →
    read_comm (name ++ ')' :: rest) d acc = (acc.reverse ++ name, rest) := by
  induction name with
  | nil =>
    intro d acc rest hd hpre hend hlen
    rw [parenBal_nil] at hend
    have hd1 : d = 1 := by omega
    subst hd1
    simp [read_comm]
  | cons c t ih =>
    intro d acc rest hd hpre hend hlen
    simp only [List.length_cons] at hlen
    rw [parenBal_cons] at hend
    by_cases hc1 : c = '('
    · subst hc1
      rw [if_pos rfl] at hend
      simp only [List.cons_append, read_comm, if_pos rfl]
      rw [if_neg (by omega : ¬(d + 1 = 1)),
        if_pos (⟨by omega, by omega⟩ : 0 < d + 1 ∧ acc.length < 255)]
      simp only [if_true, List.append_eq]
      rw [ih (d + 1) ('(' :: acc) rest (by omega) ?_ (by omega) (by simp; omega)]
      · simp
      · intro n hn
        have := hpre (n + 1) (by simpa using Nat.succ_le_succ hn)
        rw [List.take_succ_cons, parenBal_cons, if_pos rfl] at this
        omega
    · by_cases hc2 : c = ')'
      · subst hc2
        rw [if_neg (by decide), if_pos rfl] at hend
        have hlow := hpre 1 (by simp)
        rw [List.take_succ_cons, List.take_zero, parenBal_cons, if_neg (by decide),
          if_pos rfl, parenBal_nil] at hlow
        simp only [List.cons_append, read_comm, if_neg (by decide : ¬(')' : Char) = '('),
          if_pos rfl]
        rw [if_neg (by omega : ¬(d - 1 = 0)),
          if_pos (⟨by omega, by omega⟩ : 0 < d - 1 ∧ acc.length < 255)]
        simp only [if_true, List.append_eq]
        rw [ih (d - 1) (')' :: acc) rest (by omega) ?_ (by omega) (by simp; omega)]
        · simp
        · intro n hn
          have := hpre (n + 1) (by simpa using Nat.succ_le_succ hn)
          rw [List.take_succ_cons, parenBal_cons, if_neg (by decide), if_pos rfl] at this
          omega
      · rw [if_neg hc1, if_neg hc2] at hend
        simp only [List.cons_append, read_comm, if_neg hc1, if_neg hc2]
        rw [if_pos (⟨by omega, by omega⟩ : 0 < d ∧ acc.length < 255)]
        simp only [if_true, List.append_eq]
        rw [ih d (c :: acc) rest hd ?_ (by omega) (by simp; omega)]
        · simp
        · intro n hn
          have := hpre (n + 1) (by simpa using Nat.succ_le_succ hn)
          rw [List.take_succ_cons, parenBal_cons, if_neg hc1, if_neg hc2] at this
          omega

theorem read_comm_wrap (name rest : List Char)
    (hlen : name.length ≤ 255)
    (hbal : ∀ n, n ≤ name.length → 0 ≤ parenBal (name.take n))
    (hend : parenBal name = 0) :
    read_comm ('(' :: (name ++ ')' :: rest)) 0 [] = (name, rest) := by
  have h1 : read_comm ('(' :: (name ++ ')' :: rest)) 0 [] =
      read_comm (name ++ ')' :: rest) 1 [] := by
    simp [read_comm]
  rw [h1, read_comm_go name 1 [] rest (by omega)
    (fun n hn => by have := hbal n hn; omega) (by omega) (by simpa using hlen)]
  simp

/-- C3: the stat parser extracts the command name by tracking parenthesis
nesting depth: for any command name whose parentheses are balanced (no
prefix closes more than it opened, total balance zero) and that fits the
`comm` buffer, the content between the first `(` and the matching final
`)` — where the depth returns to zero — is returned as the command name,
and the parser resumes exactly at the input following that `)`, so
parentheses or whitespace inside the name do not shift the later fields. -/
theorem comm_paren_depth (name rest : List Char)
    (hlen : name.length ≤ 255)
    (hbal : ∀ n, n ≤ name.length → 0 ≤ parenBal (name.take n))
    (hend : parenBal name = 0) :
    read_comm ('(' :: (name ++ ')' :: rest)) 0 [] = (name, rest) :=
  read_comm_wrap name rest hlen hbal hend

/-- Witness for C3 at the command name `my (weird) proc`, which contains
both parentheses and spaces. -/
theorem comm_paren_depth_witness :
    "my (weird) proc".data.length ≤ 255 ∧
    (∀ n, n ≤ "my (weird) proc".data.length →
      0 ≤ parenBal ("my (weird) proc".data.take n)) ∧
    parenBal "my (weird) proc".data = 0 ∧
    read_comm ('(' :: ("my (weird) proc".data ++ ')' :: " S 1 2".data)) 0 [] =
      ("my (weird) proc".data, " S 1 2".data) :=
  ⟨by decide, by decide, by decide,
    comm_paren_depth "my (weird) proc".data " S 1 2".data
      (by decide) (by decide) (by decide)⟩

/-! ## Numeric-field scanning lemmas -/

theorem scan_nums_tailRepr (k : Nat) : ∀ (ts : List (List Char)),
    (∀ t ∈ ts, goodTok t = true) → k ≤ ts.length →
    scan_nums k (tailRepr ts) =
      some ((ts.take k).map (fun t => (digitsVal t : Int)), tailRepr (ts.drop k)) := by
  induction k with
  | zero => intro ts h hk; simp [scan_nums]
  | succ k ih =>
    intro ts h hk
    cases ts with
    | nil => simp at hk
    | cons t rest =>
      simp only [scan_nums, scan_sign_digits_tailRepr t rest (h t (by simp))]
      rw [ih rest (fun x hx => h x (by simp [hx])) (by simpa using hk)]
      simp

theorem scan_nums_tailRepr_none (k : Nat) : ∀ (ts : List (List Char)),
    (∀ t ∈ ts, goodTok t = true) → ts.length < k →
    scan_nums k (tailRepr ts) = none := by
  induction k with
  | zero => intro ts _ hk; exact absurd hk (Nat.not_lt_zero _)
  | succ k ih =>
    intro ts h hk
    cases ts with
    | nil => rfl
    | cons t rest =>
      simp only [scan_nums, scan_sign_digits_tailRepr t rest (h t (by simp))]
      rw [ih rest (fun x hx => h x (by simp [hx])) (by simpa using hk)]
      rfl

theorem as_u64_ofNat (v : Nat) : as_u64 (v : Int) = v % 2 ^ 64 := by
  unfold as_u64
  rw [show (2 ^ 64 : Int) = (18446744073709551616 : Int) from by norm_num,
    show (2 ^ 64 : Nat) = (18446744073709551616 : Nat) from by norm_num]
  omega

theorem read_stat_fields_success (state : Char) (hstate : is_ws state = false)
    (f1 f2 f3 f4 f5 f6 f7 f8 f9 f10 f11 f12 : List Char) (extra : List (List Char))
    (h : ∀ t ∈ f1 :: f2 :: f3 :: f4 :: f5 :: f6 :: f7 :: f8 :: f9 :: f10 :: f11 :: f12 :: extra,
      goodTok t = true) :
    read_stat_fields (' ' :: state ::
        tailRepr (f1 :: f2 :: f3 :: f4 :: f5 :: f6 :: f7 :: f8 :: f9 :: f10 :: f11 :: f12 :: extra)) =
      some (as_u64 (digitsVal f11 : Int), as_u64 (digitsVal f12 : Int)) := by
  unfold read_stat_fields
  rw [skip_ws_cons_ws _ (by decide), skip_ws_cons_not _ hstate]
  show read_stat_nums
      (tailRepr (f1 :: f2 :: f3 :: f4 :: f5 :: f6 :: f7 :: f8 :: f9 :: f10 :: f11 :: f12 :: extra)) = _
  unfold read_stat_nums
  rw [scan_nums_tailRepr 12 _ h (by simp)]
  rfl

theorem read_stat_fields_fail (state : Char) (hstate : is_ws state = false)
    (short : List (List Char)) (h : ∀ t ∈ short, goodTok t = true)
    (hlen : short.length < 12) :
    read_stat_fields (' ' :: state :: tailRepr short) = none := by
  unfold read_stat_fields
  rw [skip_ws_cons_ws _ (by decide), skip_ws_cons_not _ hstate]
  show read_stat_nums (tailRepr short) = _
  unfold read_stat_nums
  rw [scan_nums_tailRepr_none 12 short h hlen]

/-! ## Whitespace-field lemmas -/

theorem all_not_ws_of_digits (t : List Char) (h : t.all Char.isDigit = true) :
    t.all (fun c => !is_ws c) = true := by
  rw [List.all_eq_true] at h ⊢
  intro c hc
  simp [is_ws_of_digit (h c hc)]

theorem wsSplitAux_token (tok : List Char) : ∀ (acc rest : List Char),
    tok.all (fun c => !is_ws c) = true → tok ≠ [] ∨ acc ≠ [] →
    wsSplitAux (tok ++ ' ' :: rest) acc = (acc.reverse ++ tok) :: wsSplitAux rest [] := by
  induction tok with
  | nil =>
    intro acc rest _ hne
    have hacc : acc ≠ [] := by
      rcases hne with h | h
      · exact absurd rfl h
      · exact h
    simp only [List.nil_append, wsSplitAux, if_pos (by decide : is_ws ' ' = true)]
    rw [if_neg (by simpa [List.isEmpty_iff] using hacc)]
    simp
  | cons c t ih =>
    intro acc rest hall hne
    simp only [List.all_cons, Bool.and_eq_true, Bool.not_eq_true'] at hall
    simp only [List.cons_append, wsSplitAux, if_neg (by simp [hall.1] : ¬is_ws c = true),
      List.append_eq]
    rw [ih (c :: acc) rest (by rw [List.all_eq_true] at hall ⊢; exact fun x hx => hall.2 x hx)
      (Or.inr (by simp))]
    simp

theorem wsSplitAux_last (tok : List Char) : ∀ (acc : List Char),
    tok.all (fun c => !is_ws c) = true → tok ≠ [] ∨ acc ≠ [] →
    wsSplitAux tok acc = [acc.reverse ++ tok] := by
  induction tok with
  | nil =>
    intro acc _ hne
    have hacc : acc ≠ [] := by
      rcases hne with h | h
      · exact absurd rfl h
      · exact h
    simp only [wsSplitAux]
    rw [if_neg (by simpa [List.isEmpty_iff] using hacc)]
    simp
  | cons c t ih =>
    intro acc hall hne
    simp only [List.all_cons, Bool.and_eq_true, Bool.not_eq_true'] at hall
    simp only [wsSplitAux, if_neg (by simp [hall.1] : ¬is_ws c = true)]
    rw [ih (c :: acc) (by rw [List.all_eq_true] at hall ⊢; exact fun x hx => hall.2 x hx)
      (Or.inr (by simp))]
    simp

theorem goodTok_not_ws {t : List Char} (hg : goodTok t = true) :
    t.all (fun c => !is_ws c) = true := by
  unfold goodTok at hg
  simp only [Bool.and_eq_true] at hg
  exact all_not_ws_of_digits t hg.2

theorem goodTok_ne_nil {t : List Char} (hg : goodTok t = true) : t ≠ [] := by
  unfold goodTok at hg
  simp only [Bool.and_eq_true, Bool.not_eq_true'] at hg
  simpa [List.isEmpty_iff] using hg.1

theorem wsSplitAux_join (rest : List (List Char)) : ∀ (t : List Char),
    goodTok t = true → (∀ x ∈ rest, goodTok x = true) →
    wsSplitAux (t ++ tailRepr rest) [] = t :: rest := by
  induction rest with
  | nil =>
    intro t ht _
    show wsSplitAux (t ++ []) [] = [t]
    rw [List.append_nil, wsSplitAux_last t [] (goodTok_not_ws ht) (Or.inl (goodTok_ne_nil ht))]
    rfl
  | cons r rest ih =>
    intro t ht h
    show wsSplitAux (t ++ ' ' :: (r ++ tailRepr rest)) [] = t :: r :: rest
    rw [wsSplitAux_token t [] _ (goodTok_not_ws ht) (Or.inl (goodTok_ne_nil ht))]
    rw [ih r (h r (by simp)) (fun x hx => h x (by simp [hx]))]
    rfl

/-! ## `plainComm` consequences -/

theorem plainComm_len {comm : List Char} (h : plainComm comm = true) :
    comm.length ≤ 255 := by
  unfold plainComm at h
  simp only [Bool.and_eq_true, decide_eq_true_eq] at h
  exact h.1

theorem plainComm_not_ws {comm : List Char} (h : plainComm comm = true) :
    comm.all (fun c => !is_ws c) = true := by
  unfold plainComm at h
  simp only [Bool.and_eq_true] at h
  rw [List.all_eq_true] at h ⊢
  intro c hc
  have := h.2 c hc
  simp only [Bool.and_eq_true] at this
  exact this.2

theorem plainComm_no_paren {comm : List Char} (h : plainComm comm = true) :
    '(' ∉ comm ∧ ')' ∉ comm := by
  unfold plainComm at h
  simp only [Bool.and_eq_true] at h
  have hall := h.2
  rw [List.all_eq_true] at hall
  constructor
  · intro hm
    have := hall '(' hm
    simp at this
  · intro hm
    have := hall ')' hm
    simp at this

theorem plainComm_bal {comm : List Char} (h : plainComm comm = true) :
    ∀ n, parenBal (comm.take n) = 0 := by
  intro n
  obtain ⟨h1, h2⟩ := plainComm_no_paren h
  unfold parenBal
  rw [List.count_eq_zero.mpr (fun hm => h1 (List.take_subset n comm hm)),
    List.count_eq_zero.mpr (fun hm => h2 (List.take_subset n comm hm))]
  rfl

/-- C4: for a well-formed stat record — digit pid token, command name
without whitespace or parentheses, non-whitespace state character, and
well-formed numeric field tokens — the parser returns the values of the
14th and 15th whitespace-delimited fields overall (indices 13 and 14 of the
field list, i.e. the 12th and 13th tokens after the command name) as
`(utime, stime)`; a record with fewer than the required numeric fields
yields a lookup failure (`none`). -/
theorem stat_fields_positions
    (ptok comm : List Char) (state : Char)
    (f1 f2 f3 f4 f5 f6 f7 f8 f9 f10 f11 f12 : List Char)
    (extra short : List (List Char))
    (hp : goodTok ptok = true)
    (hcomm : plainComm comm = true)
    (hstate : is_ws state = false)
    (hts : ∀ t ∈ f1 :: f2 :: f3 :: f4 :: f5 :: f6 :: f7 :: f8 :: f9 :: f10 :: f11 :: f12 :: extra,
      goodTok t = true)
    (hshort : ∀ t ∈ short, goodTok t = true) (hshort_len : short.length < 12)
    (hv11 : digitsVal f11 < 2 ^ 64) (hv12 : digitsVal f12 < 2 ^ 64) :
    read_proc_cpu_time (some (String.mk (ptok ++ ' ' :: '(' :: (comm ++ ')' :: ' ' :: state ::
        tailRepr (f1 :: f2 :: f3 :: f4 :: f5 :: f6 :: f7 :: f8 :: f9 :: f10 :: f11 :: f12 ::
          extra))))) = some (digitsVal f11, digitsVal f12) ∧
    wsSplit (ptok ++ ' ' :: '(' :: (comm ++ ')' :: ' ' :: state ::
        tailRepr (f1 :: f2 :: f3 :: f4 :: f5 :: f6 :: f7 :: f8 :: f9 :: f10 :: f11 :: f12 ::
          extra))) =
      ptok :: ('(' :: (comm ++ [')'])) :: [state] ::
        f1 :: f2 :: f3 :: f4 :: f5 :: f6 :: f7 :: f8 :: f9 :: f10 :: f11 :: f12 :: extra ∧
    (wsSplit (ptok ++ ' ' :: '(' :: (comm ++ ')' :: ' ' :: state ::
        tailRepr (f1 :: f2 :: f3 :: f4 :: f5 :: f6 :: f7 :: f8 :: f9 :: f10 :: f11 :: f12 ::
          extra)))).getD 13 [] = f11 ∧
    (wsSplit (ptok ++ ' ' :: '(' :: (comm ++ ')' :: ' ' :: state ::
        tailRepr (f1 :: f2 :: f3 :: f4 :: f5 :: f6 :: f7 :: f8 :: f9 :: f10 :: f11 :: f12 ::
          extra)))).getD 14 [] = f12 ∧
    read_proc_cpu_time (some (String.mk (ptok ++ ' ' :: '(' :: (comm ++ ')' :: ' ' :: state ::
        tailRepr short)))) = none := by
  have hbal0 : parenBal comm = 0 := by
    have := plainComm_bal hcomm comm.length
    rwa [List.take_length] at this
  have hs : ∀ T : List Char,
      scan_sign_digits (ptok ++ ' ' :: '(' :: (comm ++ ')' :: ' ' :: state :: T)) =
        some ((digitsVal ptok : Int), ' ' :: '(' :: (comm ++ ')' :: ' ' :: state :: T)) := by
    intro T
    apply scan_sign_digits_token ptok _ hp
    rw [List.takeWhile_cons]
    simp [show (' ' : Char).isDigit = false from by decide]
  have parse : ∀ T : List Char,
      read_proc_cpu_time (some (String.mk
          (ptok ++ ' ' :: '(' :: (comm ++ ')' :: ' ' :: state :: T)))) =
        read_stat_fields (' ' :: state :: T) := by
    intro T
    show read_proc_cpu_time_str (String.mk
        (ptok ++ ' ' :: '(' :: (comm ++ ')' :: ' ' :: state :: T))) = _
    unfold read_proc_cpu_time_str
    rw [show (String.mk (ptok ++ ' ' :: '(' :: (comm ++ ')' :: ' ' :: state :: T))).data =
        ptok ++ ' ' :: '(' :: (comm ++ ')' :: ' ' :: state :: T) from rfl]
    rw [hs T]
    show read_stat_fields
        (read_comm (skip_ws (' ' :: '(' :: (comm ++ ')' :: ' ' :: state :: T))) 0 []).2 = _
    rw [skip_ws_cons_ws _ (by decide), skip_ws_cons_not _ (by decide : is_ws '(' = false)]
    rw [read_comm_wrap comm (' ' :: state :: T) (plainComm_len hcomm)
      (fun n _ => le_of_eq (plainComm_bal hcomm n).symm) hbal0]
  have split2 : wsSplit (ptok ++ ' ' :: '(' :: (comm ++ ')' :: ' ' :: state ::
      tailRepr (f1 :: f2 :: f3 :: f4 :: f5 :: f6 :: f7 :: f8 :: f9 :: f10 :: f11 :: f12 ::
        extra))) =
      ptok :: ('(' :: (comm ++ [')'])) :: [state] ::
        f1 :: f2 :: f3 :: f4 :: f5 :: f6 :: f7 :: f8 :: f9 :: f10 :: f11 :: f12 :: extra := by
    unfold wsSplit
    rw [wsSplitAux_token ptok [] _ (goodTok_not_ws hp) (Or.inl (goodTok_ne_nil hp))]
    rw [show ('(' :: (comm ++ ')' :: ' ' :: state ::
        tailRepr (f1 :: f2 :: f3 :: f4 :: f5 :: f6 :: f7 :: f8 :: f9 :: f10 :: f11 :: f12 ::
          extra))) =
        (('(' :: (comm ++ [')'])) ++ ' ' :: (state ::
          tailRepr (f1 :: f2 :: f3 :: f4 :: f5 :: f6 :: f7 :: f8 :: f9 :: f10 :: f11 :: f12 ::
            extra))) from by simp]
    rw [wsSplitAux_token ('(' :: (comm ++ [')'])) [] _
      (by simp only [List.all_cons, List.all_append, plainComm_not_ws hcomm]; decide)
      (Or.inl (by simp))]
    rw [show (state ::
        tailRepr (f1 :: f2 :: f3 :: f4 :: f5 :: f6 :: f7 :: f8 :: f9 :: f10 :: f11 :: f12 ::
          extra)) =
        ([state] ++ ' ' :: (f1 ++
          tailRepr (f2 :: f3 :: f4 :: f5 :: f6 :: f7 :: f8 :: f9 :: f10 :: f11 :: f12 ::
            extra))) from rfl]
    rw [wsSplitAux_token [state] [] _ (by simp [hstate]) (Or.inl (by simp))]
    rw [wsSplitAux_join _ f1 (hts f1 (by simp)) (fun x hx => hts x (by simp [hx]))]
    simp
  refine ⟨?_, split2, ?_, ?_, ?_⟩
  · rw [parse, read_stat_fields_success state hstate f1 f2 f3 f4 f5 f6 f7 f8 f9 f10 f11 f12
      extra hts, as_u64_ofNat, as_u64_ofNat,
      Nat.mod_eq_of_lt hv11, Nat.mod_eq_of_lt hv12]
  · rw [split2]
    rfl
  · rw [split2]
    rfl
  · rw [parse, read_stat_fields_fail state hstate short hshort hshort_len]

/-- Witness for C4 at a concrete record: pid token `7`, command `b`, state
`S`, twelve one-digit fields, one extra field, and a two-field short record. -/
theorem stat_fields_positions_witness :
    goodTok "7".data = true ∧
    plainComm "b".data = true ∧
    is_ws 'S' = false ∧
    (∀ t ∈ ["1".data, "2".data, "3".data, "4".data, "5".data, "6".data, "7".data,
        "8".data, "9".data, "10".data, "111".data, "222".data, "314".data],
      goodTok t = true) ∧
    (∀ t ∈ (["5".data, "6".data] : List (List Char)), goodTok t = true) ∧
    (["5".data, "6".data] : List (List Char)).length < 12 ∧
    digitsVal "111".data < 2 ^ 64 ∧
    digitsVal "222".data < 2 ^ 64 ∧
    read_proc_cpu_time (some (String.mk ("7".data ++ ' ' :: '(' :: ("b".data ++ ')' :: ' ' :: 'S' ::
        tailRepr ["1".data, "2".data, "3".data, "4".data, "5".data, "6".data, "7".data,
          "8".data, "9".data, "10".data, "111".data, "222".data, "314".data])))) =
      some (digitsVal "111".data, digitsVal "222".data) ∧
    (wsSplit ("7".data ++ ' ' :: '(' :: ("b".data ++ ')' :: ' ' :: 'S' ::
        tailRepr ["1".data, "2".data, "3".data, "4".data, "5".data, "6".data, "7".data,
          "8".data, "9".data, "10".data, "111".data, "222".data, "314".data]))).getD 13 [] =
      "111".data ∧
    (wsSplit ("7".data ++ ' ' :: '(' :: ("b".data ++ ')' :: ' ' :: 'S' ::
        tailRepr ["1".data, "2".data, "3".data, "4".data, "5".data, "6".data, "7".data,
          "8".data, "9".data, "10".data, "111".data, "222".data, "314".data]))).getD 14 [] =
      "222".data ∧
    read_proc_cpu_time (some (String.mk ("7".data ++ ' ' :: '(' :: ("b".data ++ ')' :: ' ' :: 'S' ::
        tailRepr (["5".data, "6".data] : List (List Char)))))) = none := by
  have h := stat_fields_positions "7".data "b".data 'S'
    "1".data "2".data "3".data "4".data "5".data "6".data "7".data
    "8".data "9".data "10".data "111".data "222".data
    ["314".data] ["5".data, "6".data]
    (by decide) (by decide) (by decide) (by decide) (by decide) (by decide)
    (by decide) (by decide)
  exact ⟨by decide, by decide, by decide, by decide, by decide, by decide, by decide, by decide,
    h.1, h.2.2.1, h.2.2.2.1, h.2.2.2.2⟩

end Monitor
